import Mathlib

/-!
Shallow embedding of the conversation-history layer of the `text2sql`
repository: `SessionService` (`src/text2sql/services/session_service.py`)
over the Redis adapter (`src/text2sql/services/redis_service.py`).

Modelling conventions:
* Sessions are shared-nothing (`session_id` is the sole partition key), so a
  `SessionState` holds the four Redis keys of one session
  (`session:<id>:messages`, `:info`, `:system`, `:summary`).
* Timestamps are `Nat`.  The source stores ISO-8601 strings produced by
  `datetime.utcnow().isoformat()`; those compare lexicographically exactly as
  the instants compare, so `Nat` with `≤` is a faithful rendering.
* Every key that exists carries its absolute expiry instant: `SET ... ex=ttl`
  and `EXPIRE key ttl` executed at time `now` store `now + ttl`.
* Coroutines that cannot raise in the modelled fragment are total functions;
  the `bool` the service methods return is modelled explicitly.
-/

namespace Text2SQL

/-- One conversation turn, mirroring `ChatMessage` in `models/schemas.py`:
`role` (`human`/`ai`/`system`), `content`, a creation `timestamp`, and the
optional `metadata` dict (opaque key/value pairs, `{}` when omitted). -/
structure Msg where
  role : String
  content : String
  timestamp : Nat
  metadata : List (String × String)
deriving DecidableEq

/-- The session-info dict written by `create_session`.
`_update_session_activity` reads the key with default `{}`; the fields that
are absent in that fallback dict are modelled by `emptyInfo`'s defaults. -/
structure SessionInfo where
  session_id : String
  created_at : Nat
  last_activity : Nat
  message_count : Nat
  is_active : Bool
deriving DecidableEq

/-- Model of the `{}` default that `_update_session_activity` starts from
when the info key is missing. -/
def emptyInfo : SessionInfo :=
  { session_id := "", created_at := 0, last_activity := 0,
    message_count := 0, is_active := false }

/-- The four Redis keys of one session.  A `some (v, e)` is a key holding
value `v` that expires at instant `e`; `none` is an absent key. -/
structure SessionState where
  messages : Option (List Msg × Nat)
  info : Option (SessionInfo × Nat)
  system : Option (List Msg × Nat)
  summary : Option (String × Nat)
deriving DecidableEq

/-- The state with no keys, i.e. a session that does not exist. -/
def emptyState : SessionState :=
  { messages := none, info := none, system := none, summary := none }

/-- Value of a list- or set-valued key; a missing key reads as empty
(Redis `LRANGE`/`SMEMBERS`/`LLEN` on a missing key). -/
def keyList (o : Option (List Msg × Nat)) : List Msg :=
  (o.map Prod.fst).getD []

/-- Expiry instant currently attached to a key, if the key exists. -/
def keyExpiry {α : Type} (o : Option (α × Nat)) : Option Nat :=
  o.map Prod.snd

/-- Redis `SADD` of one serialized message.  The set is modelled as a
duplicate-free list in insertion order; `SADD` is a no-op on an element that
is already a member.  (`SMEMBERS` returns members in arbitrary order; every
reader below sorts the members by timestamp, so under the distinct-timestamp
hypotheses used in the theorems the results are order-independent.) -/
def sadd (s : List Msg) (m : Msg) : List Msg :=
  if m ∈ s then s else s ++ [m]

/-- Redis index resolution: a negative index counts from the end. -/
def redisIdx (len : Nat) (i : Int) : Int :=
  if i < 0 then (len : Int) + i else i

/-- Redis `LRANGE key start stop`: inclusive range with negative indices
resolved from the end, start clamped up to `0`, stop clamped down to
`len - 1`, empty when the resolved range is empty. -/
def lrange (l : List Msg) (start stop : Int) : List Msg :=
  let s := max (redisIdx l.length start) 0
  let e := min (redisIdx l.length stop) ((l.length : Int) - 1)
  if e < s then [] else (l.drop s.toNat).take (e - s + 1).toNat

/-- Redis `LTRIM key start stop`: the list key keeps exactly the `LRANGE`
elements; the key's TTL is untouched and a missing key stays missing.
(Redis deletes a key trimmed to the empty list; the claims below never
depend on that case.) -/
def ltrimKey (o : Option (List Msg × Nat)) (start stop : Int) :
    Option (List Msg × Nat) :=
  o.map fun p => (lrange p.1 start stop, p.2)

/-- Result dict of `SummarizationAgent.summarize_conversation`:
`{"success": True, "summary": s}` or `{"success": False, "error": e}`. -/
inductive SummResult where
  | ok (summary : String)
  | err (error : String)
deriving DecidableEq

/-- The summarizer boundary: ordered non-system turns and an optional
existing summary in, a new summary or a failure out. -/
def Summarizer : Type := List Msg → Option String → SummResult

/-- The constructor state of `SessionService` read by the modelled methods:
`app_settings.session_ttl`, `app_settings.max_history_messages`,
`keep_recent_messages`, and the optional `summarization_agent`. -/
structure Service where
  session_ttl : Nat
  max_history_messages : Nat
  keep_recent_messages : Nat
  summarization_agent : Option Summarizer

/-- `SessionService.create_session`: unconditionally write a fresh info dict
(`message_count = 0`, `is_active = True`, both timestamps `now`) with
`ex = session_ttl`, and return `True`. -/
def create_session (svc : Service) (sid : String) (st : SessionState)
    (now : Nat) : SessionState × Bool :=
  ({ st with
      info := some ({ session_id := sid, created_at := now, last_activity := now,
                      message_count := 0, is_active := true },
                    now + svc.session_ttl) },
   true)

/-- `SessionService.session_exists`: `EXISTS` on the info key. -/
def session_exists (st : SessionState) : Bool :=
  st.info.isSome

/-- `SessionService.get_session_info`: `GET` of the info key. -/
def get_session_info (st : SessionState) : Option SessionInfo :=
  st.info.map Prod.fst

/-- `SessionService._update_session_activity`: read the info dict with
default `{}`, set `last_activity = now` and
`message_count = get("message_count", 0) + 1`, write back with the TTL. -/
def update_session_activity (svc : Service) (st : SessionState) (now : Nat) :
    SessionState :=
  let info := (st.info.map Prod.fst).getD emptyInfo
  { st with
      info := some ({ info with last_activity := now,
                                message_count := info.message_count + 1 },
                    now + svc.session_ttl) }

/-- `SessionService.add_message`: auto-create the session if the info key is
absent; `SADD` + `EXPIRE` on the system key for `role == "system"`, else
`RPUSH` + `EXPIRE` on the messages key; then update the session info. -/
def add_message (svc : Service) (sid : String) (st : SessionState) (now : Nat)
    (role content : String) (metadata : List (String × String)) :
    SessionState × Bool :=
  let st1 := if session_exists st then st else (create_session svc sid st now).1
  let m : Msg := { role := role, content := content,
                   timestamp := now, metadata := metadata }
  let st2 :=
    if role == "system" then
      { st1 with system := some (sadd (keyList st1.system) m, now + svc.session_ttl) }
    else
      { st1 with messages := some (keyList st1.messages ++ [m], now + svc.session_ttl) }
  (update_session_activity svc st2 now, true)

/-- The `end` argument `get_history` passes to `LRANGE`:
`limit - 1 if limit else -1` — both `None` and the falsy `0` give `-1`. -/
def historyStop (limit : Option Nat) : Int :=
  match limit with
  | none => -1
  | some 0 => -1
  | some (n + 1) => (n : Int)

/-- The sort key comparison of `get_history`:
`key=lambda x: (x.get("role") != "system", x.get("timestamp", ""))`,
tuples compared lexicographically with `False < True`. -/
def keyLEb (a b : Msg) : Bool :=
  (!(a.role != "system") && (b.role != "system"))
    || ((a.role != "system") == (b.role != "system")
          && decide (a.timestamp ≤ b.timestamp))

/-- `msgLE a b` holds when the Python sort key of `a` is at most that of
`b`; a total preorder. -/
def msgLE (a b : Msg) : Prop := keyLEb a b = true

instance : DecidableRel msgLE :=
  fun a b => inferInstanceAs (Decidable (keyLEb a b = true))

/-- Python's `list.sort` is a stable sort by the key above; insertion sort
with the total preorder `msgLE` is stable, hence computes the same list. -/
def pySort (l : List Msg) : List Msg := List.insertionSort msgLE l

/-- `SessionService.get_history`: `SMEMBERS` of the system key (when
requested) and `LRANGE 0 (limit - 1 if limit else -1)` of the messages key,
concatenated and stably sorted by `(role != "system", timestamp)`. -/
def get_history (st : SessionState) (limit : Option Nat)
    (include_system : Bool) : List Msg :=
  let sysMsgs := if include_system then keyList st.system else []
  let conv := lrange (keyList st.messages) 0 (historyStop limit)
  pySort (sysMsgs ++ conv)

/-- `SessionService.get_message_count`: `LLEN` of the messages key. -/
def get_message_count (st : SessionState) : Nat :=
  (keyList st.messages).length

/-- `SessionService.should_summarize`:
`get_message_count ≥ max_history_messages`. -/
def should_summarize (svc : Service) (st : SessionState) : Bool :=
  decide (svc.max_history_messages ≤ get_message_count st)

/-- `SessionService.get_conversation_summary`: `GET` of the summary key
(`None` when absent). -/
def get_conversation_summary (st : SessionState) : Option String :=
  st.summary.map Prod.fst

/-- `SessionService.save_conversation_summary`: `SET` of the summary key
with `ex = session_ttl`; returns `True`. -/
def save_conversation_summary (svc : Service) (st : SessionState) (now : Nat)
    (summary : String) : SessionState × Bool :=
  ({ st with summary := some (summary, now + svc.session_ttl) }, true)

/-- `SessionService.clear_session`: one multi-key `DELETE` of the messages,
info and system keys.  The summary key is not an argument of the call. -/
def clear_session (st : SessionState) : SessionState × Bool :=
  ({ st with messages := none, info := none, system := none }, true)

/-- `SessionService.delete_session` simply delegates to `clear_session`. -/
def delete_session (st : SessionState) : SessionState × Bool :=
  clear_session st

/-- `keep_recent = keep_recent or self.keep_recent_messages`: `None` and the
falsy `0` both fall back to the instance default. -/
def resolveKeep (svc : Service) (keep_recent : Option Nat) : Nat :=
  match keep_recent with
  | none => svc.keep_recent_messages
  | some 0 => svc.keep_recent_messages
  | some (k + 1) => k + 1

/-- `SessionService.auto_summarize_and_trim`: no-op failure without an
agent; otherwise fetch non-system history and the existing summary, invoke
the agent, and on `success` save the summary, inject it as a system turn and
`LTRIM` the messages key to `(-keep_recent, -1)`; on agent failure return
`False` with no store write. -/
def auto_summarize_and_trim (svc : Service) (sid : String) (st : SessionState)
    (now : Nat) (keep_recent : Option Nat) : SessionState × Bool :=
  match svc.summarization_agent with
  | none => (st, false)
  | some summarize =>
    let keep := resolveKeep svc keep_recent
    let messages := get_history st none false
    let existing := get_conversation_summary st
    match summarize messages existing with
    | .err _ => (st, false)
    | .ok s =>
      let st1 := (save_conversation_summary svc st now s).1
      let st2 := (add_message svc sid st1 now "system"
                    ("Previous conversation summary: " ++ s) []).1
      let st3 := { st2 with messages := ltrimKey st2.messages (-(keep : Int)) (-1) }
      (st3, true)

/-- One `add_message` call as issued by a caller: the role and content of
the turn and the clock value at the call (`datetime.utcnow()`). -/
structure AppendReq where
  role : String
  content : String
  now : Nat
deriving DecidableEq

/-- The `ChatMessage` an append produces (`metadata` defaults to `{}`). -/
def toMsg (a : AppendReq) : Msg :=
  { role := a.role, content := a.content, timestamp := a.now, metadata := [] }

/-- A sequence of `add_message` calls against one session. -/
def applyAppends (svc : Service) (sid : String) (st : SessionState)
    (l : List AppendReq) : SessionState :=
  l.foldl (fun s a => (add_message svc sid s a.now a.role a.content []).1) st

/-- The store-write phase of one successful compaction (spec steps 4–6):
summary `SET`, system-turn injection, list `LTRIM`.  Each constructor is one
atomic store command; in the source each is a separate `await`, i.e. a
scheduling point at which other coroutines run. -/
inductive CompactionWrite where
  | save (s : String)
  | inject (s : String)
  | trim (k : Nat)
deriving DecidableEq

/-- Execute one compaction store write against the session state. -/
def applyWrite (svc : Service) (sid : String) (now : Nat) (st : SessionState) :
    CompactionWrite → SessionState
  | .save s => (save_conversation_summary svc st now s).1
  | .inject s => (add_message svc sid st now "system"
      ("Previous conversation summary: " ++ s) []).1
  | .trim k => { st with messages := ltrimKey st.messages (-(k : Int)) (-1) }

/-- The write phase a compaction with summarizer output `s` and retained
window `k` performs.  `auto_summarize_and_trim` issues exactly these writes
unconditionally: the code consults no lock and no in-progress flag, so the
pending writes of a run do not depend on whether another run is mid-flight
(`auto_eq_writePhase` below ties this list to the embedded method). -/
def writePhase (s : String) (k : Nat) : List CompactionWrite :=
  [.save s, .inject s, .trim k]

/-- The write phase of process `p`, tagged with the process identity. -/
def taggedPhase (p : Bool) (s : String) (k : Nat) :
    List (Bool × CompactionWrite) :=
  (writePhase s k).map fun w => (p, w)

/-- A concurrent schedule: `true` lets the first compaction issue its next
pending write, `false` the second; an exhausted schedule flushes the
remaining writes in process order. -/
def interleave {α : Type} : List Bool → List α → List α → List α
  | [], xs, ys => xs ++ ys
  | true :: sch, [], ys => interleave sch [] ys
  | true :: sch, x :: xs, ys => x :: interleave sch xs ys
  | false :: sch, xs, [] => interleave sch xs []
  | false :: sch, xs, y :: ys => y :: interleave sch xs ys

/-- Run an interleaved trace of tagged compaction writes. -/
def runTrace (svc : Service) (sid : String) (now : Nat) (st : SessionState)
    (tr : List (Bool × CompactionWrite)) : SessionState :=
  tr.foldl (fun s a => applyWrite svc sid now s a.2) st

/-- A trace of two compactions is serialized when all writes of one precede
all writes of the other. -/
def SerialTrace (w1 w2 tr : List (Bool × CompactionWrite)) : Prop :=
  tr = w1 ++ w2 ∨ tr = w2 ++ w1

instance (w1 w2 tr : List (Bool × CompactionWrite)) :
    Decidable (SerialTrace w1 w2 tr) :=
  inferInstanceAs (Decidable (_ ∨ _))

/-- Fixture: a service with TTL 100 and no summarization agent. -/
def svcF : Service := ⟨100, 20, 10, none⟩

/-- Fixture: a summarizer that always succeeds with summary `"SUM"`. -/
def okA : Summarizer := fun _ _ => .ok "SUM"

/-- Fixture: a service whose agent always succeeds. -/
def svcOk : Service := ⟨100, 20, 10, some okA⟩

/-- Fixture: a summarizer that always fails. -/
def failA : Summarizer := fun _ _ => .err "model unavailable"

/-- Fixture: a service whose agent always fails. -/
def svcFail : Service := ⟨100, 20, 10, some failA⟩

/-- Fixture: a created session that then received one human turn. -/
def stB : SessionState :=
  (add_message svcF "s" ((create_session svcF "s" emptyState 0).1) 1 "human" "q" []).1

/-- Fixture: `stB` after `save_conversation_summary` stored `"S"`. -/
def stC1 : SessionState := (save_conversation_summary svcF stB 2 "S").1

/-- Fixture: a fresh session that received one human turn at time 0. -/
def stC3a : SessionState := (add_message svcF "s" emptyState 0 "human" "q1" []).1

/-- Fixture: `stC3a` with a summary saved at time 0 (expiry 100). -/
def stC3b : SessionState := (save_conversation_summary svcF stC3a 0 "S").1

/-- Fixture: `stC3b` after a second human turn appended at time 5. -/
def stC3c : SessionState := (add_message svcF "s" stC3b 5 "human" "q2" []).1

/-- Fixture: 25 human turns with timestamps `0..24`. -/
def msgs25 : List Msg :=
  (List.range 25).map fun i => { role := "human", content := "m",
                                 timestamp := i, metadata := [] }

/-- Fixture: a session holding `msgs25`, a metadata dict and one standing
system directive. -/
def st25 : SessionState :=
  { messages := some (msgs25, 30),
    info := some (⟨"s", 0, 24, 25, true⟩, 30),
    system := some ([{ role := "system", content := "d",
                       timestamp := 0, metadata := [] }], 30),
    summary := none }

/-- Fixture: three appends (human, system, ai) with increasing clocks. -/
def appendsW : List AppendReq :=
  [⟨"human", "How many employees?", 1⟩,
   ⟨"system", "You are a SQL assistant.", 2⟩,
   ⟨"ai", "SELECT COUNT(*) FROM employees", 3⟩]

/-- Fixture: the tagged write phase of the first concurrent compaction. -/
def phaseOne : List (Bool × CompactionWrite) := taggedPhase true "summary one" 5

/-- Fixture: the tagged write phase of the second concurrent compaction. -/
def phaseTwo : List (Bool × CompactionWrite) := taggedPhase false "summary two" 5

/-- Fixture: a session with 7 human turns, used as the start state of the
two concurrent compactions. -/
def stC9 : SessionState :=
  { messages := some ((List.range 7).map (fun i =>
      { role := "human", content := "m", timestamp := i, metadata := [] }), 50),
    info := some (⟨"s", 0, 6, 7, true⟩, 50),
    system := none,
    summary := none }

/-- `LRANGE key 0 -1` reads the whole list. -/
lemma lrange_all (l : List Msg) : lrange l 0 (-1) = l := by
  unfold lrange redisIdx
  norm_num

/-- `LRANGE key 0 n` (with `n ≥ 0`) reads the first `n + 1` elements. -/
lemma lrange_head (l : List Msg) (n : Nat) :
    lrange l 0 (n : Int) = l.take (n + 1) := by
  unfold lrange redisIdx
  norm_num [show ¬((n : Int) < 0) by omega]
  rcases eq_or_ne l [] with rfl | hne
  · simp
  · rw [if_neg (by simp [hne])]
    rw [List.take_eq_take]
    omega

/-- `LRANGE key (-k) -1` (with `k ≥ 1`) reads the last `k` elements. -/
lemma lrange_last (l : List Msg) (k : Nat) (hk : 1 ≤ k) :
    lrange l (-(k : Int)) (-1) = l.drop (l.length - k) := by
  unfold lrange redisIdx
  norm_num [show 0 < k from hk]
  rcases eq_or_ne l [] with rfl | hne
  · simp
  · have hlen : 1 ≤ l.length := List.length_pos.mpr hne
    rw [if_neg (by simp only [hne, or_false]; omega)]
    have h1 : (((l.length : Int) + -k) ⊔ 0).toNat = l.length - k := by omega
    rw [h1]
    exact List.take_of_length_le (by rw [List.length_drop]; omega)

/-- `msgLE` between a system turn and a non-system turn, any timestamps. -/
lemma msgLE_sys_nonsys {a b : Msg} (ha : a.role = "system")
    (hb : b.role ≠ "system") : msgLE a b := by
  simp [msgLE, keyLEb, ha, hb]

/-- `msgLE` between two system turns with ordered timestamps. -/
lemma msgLE_sys_sys {a b : Msg} (ha : a.role = "system")
    (hb : b.role = "system") (ht : a.timestamp ≤ b.timestamp) : msgLE a b := by
  simp [msgLE, keyLEb, ha, hb, ht]

/-- `msgLE` between two non-system turns with ordered timestamps. -/
lemma msgLE_nonsys_nonsys {a b : Msg} (ha : a.role ≠ "system")
    (hb : b.role ≠ "system") (ht : a.timestamp ≤ b.timestamp) : msgLE a b := by
  have ha2 : (a.role != "system") = true := by simp [ha]
  have hb2 : (b.role != "system") = true := by simp [hb]
  simp [msgLE, keyLEb, ha2, hb2, ht]

/-- A block of system turns with non-decreasing timestamps followed by a
block of non-system turns with non-decreasing timestamps is already sorted
for the Python sort key, so the stable sort leaves it unchanged. -/
lemma pySort_eq_of_blocks (sys nonsys : List Msg)
    (h1 : ∀ m ∈ sys, m.role = "system")
    (h2 : ∀ m ∈ nonsys, m.role ≠ "system")
    (h3 : List.Pairwise (fun a b : Msg => a.timestamp ≤ b.timestamp) sys)
    (h4 : List.Pairwise (fun a b : Msg => a.timestamp ≤ b.timestamp) nonsys) :
    pySort (sys ++ nonsys) = sys ++ nonsys := by
  have hsorted : List.Sorted msgLE (sys ++ nonsys) :=
    List.pairwise_append.mpr
      ⟨h3.imp_of_mem fun ha hb ht => msgLE_sys_sys (h1 _ ha) (h1 _ hb) ht,
       h4.imp_of_mem fun ha hb ht => msgLE_nonsys_nonsys (h2 _ ha) (h2 _ hb) ht,
       fun a ha b hb => msgLE_sys_nonsys (h1 _ ha) (h2 _ hb)⟩
  exact hsorted.insertionSort_eq

/-- `SADD` leaves the added element a member. -/
lemma mem_sadd_self (s : List Msg) (m : Msg) : m ∈ sadd s m := by
  by_cases h : m ∈ s <;> simp [sadd, h]

/-- `SADD` preserves the existing members. -/
lemma mem_sadd_of_mem (s : List Msg) (m x : Msg) (hx : x ∈ s) : x ∈ sadd s m := by
  by_cases h : m ∈ s <;> simp [sadd, h, hx]

/-- Running a sequence of appends whose clock values strictly increase (and
stay above every timestamp already in the system set) appends the non-system
turns, in order, to the message list and the system turns, in order, to the
system set. -/
lemma applyAppends_split (svc : Service) (sid : String) :
    ∀ (l : List AppendReq) (st : SessionState),
      (∀ a ∈ l, ∀ m ∈ keyList st.system, m.timestamp < a.now) →
      List.Pairwise (fun a b => a.now < b.now) l →
      keyList (applyAppends svc sid st l).messages
          = keyList st.messages ++ (l.filter fun a => !(a.role == "system")).map toMsg
        ∧ keyList (applyAppends svc sid st l).system
          = keyList st.system ++ (l.filter fun a => a.role == "system").map toMsg := by
  intro l
  induction l with
  | nil => intro st _ _; simp [applyAppends]
  | cons a l ih =>
    intro st hts hpw
    rw [List.pairwise_cons] at hpw
    have hstep : applyAppends svc sid st (a :: l)
        = applyAppends svc sid ((add_message svc sid st a.now a.role a.content []).1) l := rfl
    set st2 := (add_message svc sid st a.now a.role a.content []).1 with hst2
    cases hr : (a.role == "system") with
    | false =>
      have hM : keyList st2.messages = keyList st.messages ++ [toMsg a] := by
        cases hs : session_exists st <;>
          simp [hst2, add_message, update_session_activity, create_session,
            hr, hs, keyList, toMsg]
      have hS : keyList st2.system = keyList st.system := by
        cases hs : session_exists st <;>
          simp [hst2, add_message, update_session_activity, create_session,
            hr, hs, keyList]
      obtain ⟨ihM, ihS⟩ := ih st2
        (fun b hb m hm => hts b (List.mem_cons_of_mem _ hb) m (by rwa [hS] at hm))
        hpw.2
      refine ⟨?_, ?_⟩
      · rw [hstep, ihM, hM, List.filter_cons]
        simp [hr]
      · rw [hstep, ihS, hS, List.filter_cons]
        simp [hr]
    | true =>
      have hmem : toMsg a ∉ keyList st.system := by
        intro hmem
        exact absurd (hts a (List.mem_cons_self a l) _ hmem) (by simp [toMsg])
      have hM : keyList st2.messages = keyList st.messages := by
        cases hs : session_exists st <;>
          simp [hst2, add_message, update_session_activity, create_session,
            hr, hs, keyList]
      have hS : keyList st2.system = keyList st.system ++ [toMsg a] := by
        simp only [keyList, toMsg] at hmem
        cases hs : session_exists st <;>
          simp [hst2, add_message, update_session_activity, create_session,
            hr, hs, keyList, toMsg, sadd, hmem]
      obtain ⟨ihM, ihS⟩ := ih st2
        (fun b hb m hm => by
          rw [hS] at hm
          rcases List.mem_append.mp hm with hm | hm
          · exact hts b (List.mem_cons_of_mem _ hb) m hm
          · have : m = toMsg a := by simpa using hm
            subst this
            simpa [toMsg] using hpw.1 b hb)
        hpw.2
      refine ⟨?_, ?_⟩
      · rw [hstep, ihM, hM, List.filter_cons]
        simp [hr]
      · rw [hstep, ihS, hS, List.filter_cons]
        simp [hr, List.append_assoc]

/-- Every interleaving is a permutation of the two processes' write lists:
in particular no pending write is dropped and none is invented. -/
lemma interleave_perm {α : Type} :
    ∀ (sch : List Bool) (xs ys : List α), List.Perm (interleave sch xs ys) (xs ++ ys) := by
  intro sch
  induction sch with
  | nil => intro xs ys; exact List.Perm.refl _
  | cons b sch ih =>
    intro xs ys
    cases b
    · cases ys with
      | nil => simpa using ih xs []
      | cons y ys => exact ((ih xs ys).cons y).trans List.perm_middle.symm
    · cases xs with
      | nil => simpa using ih [] ys
      | cons x xs => exact (ih xs ys).cons x

/-- Soundness of the two-process model: on a succeeding summarizer,
`auto_summarize_and_trim` is exactly the fold of its write phase. -/
lemma auto_eq_writePhase (svc : Service) (sid : String) (st : SessionState)
    (now : Nat) (f : Summarizer) (s : String) (k : Nat)
    (hf : svc.summarization_agent = some f)
    (hok : f (get_history st none false) (get_conversation_summary st) = .ok s) :
    auto_summarize_and_trim svc sid st now (some (k + 1))
      = ((writePhase s (k + 1)).foldl (applyWrite svc sid now) st, true) := by
  simp [auto_summarize_and_trim, hf, hok, resolveKeep, writePhase, applyWrite]

/-- C1: the claim says `delete_session` removes all four session keys, so
that afterwards the summary reads as absent.  The code's `clear_session`
deletes only the messages, info and system keys: after deleting a session
that holds the summary `"S"`, `session_exists` is false and `get_history`
is empty as claimed, but `get_conversation_summary` still returns `"S"`,
contradicting the claim (and `clear_session`'s own docstring, which promises
to clear all session data). -/
theorem C1_delete_session_leaves_summary :
    session_exists (delete_session stC1).1 = false
    ∧ get_history (delete_session stC1).1 none true = []
    ∧ get_message_count (delete_session stC1).1 = 0
    ∧ get_conversation_summary stC1 = some "S"
    ∧ get_conversation_summary (delete_session stC1).1 = some "S"
    ∧ get_conversation_summary (delete_session stC1).1 ≠ none := by
  decide

/-- C2 counterexample: `create_session` is not a no-op on an existing
session.  On a session whose metadata records `message_count = 1`, a second
`create_session` resets the count to `0`, so the claim "a second call leaves
turn_count and the other metadata unchanged for every session state" is
false. -/
theorem C2_counterexample :
    (get_session_info stB).map SessionInfo.message_count = some 1
    ∧ (get_session_info ((create_session svcF "s" stB 2).1)).map
        SessionInfo.message_count = some 0 := by
  decide

/-- C2 amended: `create_session` always returns success and never raises,
and it leaves the turn list, system set and summary untouched — but it is
not a no-op when the metadata key exists: it overwrites the info dict with a
fresh record (`message_count = 0`, both timestamps `now`).  Consequently two
back-to-back calls (with no intervening append) do leave `message_count`
unchanged at `0`, which is the only sense in which the spec's idempotence
test passes. -/
theorem C2_create_session_overwrites (svc : Service) (sid : String)
    (st : SessionState) (now : Nat) :
    (create_session svc sid st now).2 = true
    ∧ (create_session svc sid st now).1.messages = st.messages
    ∧ (create_session svc sid st now).1.system = st.system
    ∧ (create_session svc sid st now).1.summary = st.summary
    ∧ get_session_info (create_session svc sid st now).1
        = some { session_id := sid, created_at := now, last_activity := now,
                 message_count := 0, is_active := true }
    ∧ get_session_info (create_session svc sid ((create_session svc sid st now).1) now).1
        = get_session_info (create_session svc sid st now).1 :=
  ⟨rfl, rfl, rfl, rfl, rfl, rfl⟩

/-- C3 counterexample: the TTLs of all four keys are not refreshed on every
write.  With `session_ttl = 100`: append at time 0, save a summary at time
0, then append again at time 5.  The messages and info keys now expire at
105, but the summary key still expires at 100, not at `5 + session_ttl` as
the claim requires. -/
theorem C3_counterexample :
    keyExpiry stC3c.messages = some 105
    ∧ keyExpiry stC3c.info = some 105
    ∧ keyExpiry stC3c.summary = some 100
    ∧ keyExpiry stC3c.summary ≠ some (5 + svcF.session_ttl) := by
  decide

/-- C3 amended: each write refreshes the TTL only of the keys it writes.
`add_message` refreshes the written turn key (messages for human/ai, system
for system) and the info key, leaving the summary key — and the untouched
turn key — alone; `save_conversation_summary` refreshes only the summary
key. -/
theorem C3_ttl_refresh_per_key (svc : Service) (sid : String)
    (st : SessionState) (now : Nat) (role content : String)
    (md : List (String × String)) (s : String) :
    ((add_message svc sid st now role content md).1.summary = st.summary)
    ∧ (role ≠ "system" →
        keyExpiry (add_message svc sid st now role content md).1.messages
            = some (now + svc.session_ttl)
        ∧ keyExpiry (add_message svc sid st now role content md).1.info
            = some (now + svc.session_ttl)
        ∧ (add_message svc sid st now role content md).1.system = st.system)
    ∧ (role = "system" →
        keyExpiry (add_message svc sid st now role content md).1.system
            = some (now + svc.session_ttl)
        ∧ keyExpiry (add_message svc sid st now role content md).1.info
            = some (now + svc.session_ttl)
        ∧ (add_message svc sid st now role content md).1.messages = st.messages)
    ∧ ((save_conversation_summary svc st now s).1.messages = st.messages
        ∧ (save_conversation_summary svc st now s).1.system = st.system
        ∧ (save_conversation_summary svc st now s).1.info = st.info
        ∧ keyExpiry (save_conversation_summary svc st now s).1.summary
            = some (now + svc.session_ttl)) := by
  refine ⟨?_, ?_, ?_, rfl, rfl, rfl, rfl⟩
  · cases hr : (role == "system") <;> cases hi : session_exists st <;>
      simp [add_message, update_session_activity, create_session, hr, hi]
  · intro h
    have hr : (role == "system") = false := by simp [h]
    cases hi : session_exists st <;>
      simp [add_message, update_session_activity, create_session, keyExpiry, hr, hi]
  · intro h
    have hr : (role == "system") = true := by simp [h]
    cases hi : session_exists st <;>
      simp [add_message, update_session_activity, create_session, keyExpiry, hr, hi]

/-- C3 witness: the amended theorem applied to a human append at time 5 on
`stC3b` (TTL 100): the summary key is untouched and the messages key expires
at 105. -/
theorem C3_ttl_refresh_per_key_witness :
    ("human" : String) ≠ "system"
    ∧ (add_message svcF "s" stC3b 5 "human" "q2" []).1.summary = stC3b.summary
    ∧ keyExpiry (add_message svcF "s" stC3b 5 "human" "q2" []).1.messages
        = some (5 + svcF.session_ttl) :=
  ⟨by decide,
   (C3_ttl_refresh_per_key svcF "s" stC3b 5 "human" "q2" [] "S").1,
   ((C3_ttl_refresh_per_key svcF "s" stC3b 5 "human" "q2" [] "S").2.1 (by decide)).1⟩

/-- C4: if the summarizer reports failure, `auto_summarize_and_trim` returns
the state unchanged with result `False`: no summary is persisted or
overwritten, the turn list (and its count) is untouched, no system turn is
injected, and the failure is reported to the caller. -/
theorem C4_summarizer_failure_atomic (svc : Service) (sid : String)
    (st : SessionState) (now : Nat) (keep : Option Nat) (f : Summarizer)
    (e : String)
    (hf : svc.summarization_agent = some f)
    (he : f (get_history st none false) (get_conversation_summary st) = .err e) :
    auto_summarize_and_trim svc sid st now keep = (st, false)
    ∧ get_conversation_summary (auto_summarize_and_trim svc sid st now keep).1
        = get_conversation_summary st
    ∧ get_message_count (auto_summarize_and_trim svc sid st now keep).1
        = get_message_count st
    ∧ keyList (auto_summarize_and_trim svc sid st now keep).1.system
        = keyList st.system := by
  have h : auto_summarize_and_trim svc sid st now keep = (st, false) := by
    simp [auto_summarize_and_trim, hf, he]
  exact ⟨h, by rw [h], by rw [h], by rw [h]⟩

/-- C4 witness: an always-failing agent run on `st25` leaves the state
untouched and reports failure. -/
theorem C4_summarizer_failure_atomic_witness :
    svcFail.summarization_agent = some failA
    ∧ failA (get_history st25 none false) (get_conversation_summary st25)
        = .err "model unavailable"
    ∧ auto_summarize_and_trim svcFail "s" st25 9 (some 5) = (st25, false) :=
  ⟨rfl, rfl,
   (C4_summarizer_failure_atomic svcFail "s" st25 9 (some 5) failA
     "model unavailable" rfl rfl).1⟩

/-- C5: on a succeeding summarizer with output `s` and window `1 ≤ k < m`
(`m` the stored turn count), compaction returns success, the turn list
becomes exactly the `k` most-recently-appended turns, the stored summary
equals the summarizer's output, a new system turn whose content carries the
summary text is present in the system set, and the pre-existing system
directives all survive the trim. -/
theorem C5_compaction_trims (svc : Service) (sid : String) (st : SessionState)
    (now : Nat) (f : Summarizer) (s : String) (k : Nat)
    (hf : svc.summarization_agent = some f)
    (hok : f (get_history st none false) (get_conversation_summary st) = .ok s)
    (hk : 1 ≤ k) (hkm : k < (keyList st.messages).length) :
    (auto_summarize_and_trim svc sid st now (some k)).2 = true
    ∧ keyList (auto_summarize_and_trim svc sid st now (some k)).1.messages
        = (keyList st.messages).drop ((keyList st.messages).length - k)
    ∧ (keyList (auto_summarize_and_trim svc sid st now (some k)).1.messages).length = k
    ∧ get_conversation_summary (auto_summarize_and_trim svc sid st now (some k)).1
        = some s
    ∧ ({ role := "system", content := "Previous conversation summary: " ++ s,
         timestamp := now, metadata := [] } : Msg)
        ∈ keyList (auto_summarize_and_trim svc sid st now (some k)).1.system
    ∧ ∀ m ∈ keyList st.system,
        m ∈ keyList (auto_summarize_and_trim svc sid st now (some k)).1.system := by
  obtain ⟨k2, rfl⟩ : ∃ k2, k = k2 + 1 := ⟨k - 1, by omega⟩
  obtain ⟨⟨l, e⟩, hp⟩ : ∃ p, st.messages = some p := by
    cases hm : st.messages with
    | none => rw [hm] at hkm; simp [keyList] at hkm
    | some p => exact ⟨p, rfl⟩
  have hret : (auto_summarize_and_trim svc sid st now (some (k2 + 1))).2 = true := by
    cases hi : st.info <;>
      simp [auto_summarize_and_trim, hf, hok, resolveKeep, save_conversation_summary,
        add_message, update_session_activity, create_session, ltrimKey,
        session_exists, hi]
  have hmsg : (auto_summarize_and_trim svc sid st now (some (k2 + 1))).1.messages
      = some (lrange l (-((k2 + 1 : Nat) : Int)) (-1), e) := by
    cases hi : st.info <;>
      simp [auto_summarize_and_trim, hf, hok, resolveKeep, save_conversation_summary,
        add_message, update_session_activity, create_session, ltrimKey,
        session_exists, hi, hp]
  have hsum : (auto_summarize_and_trim svc sid st now (some (k2 + 1))).1.summary
      = some (s, now + svc.session_ttl) := by
    cases hi : st.info <;>
      simp [auto_summarize_and_trim, hf, hok, resolveKeep, save_conversation_summary,
        add_message, update_session_activity, create_session, ltrimKey,
        session_exists, hi]
  have hsys : (auto_summarize_and_trim svc sid st now (some (k2 + 1))).1.system
      = some (sadd (keyList st.system)
          { role := "system", content := "Previous conversation summary: " ++ s,
            timestamp := now, metadata := [] }, now + svc.session_ttl) := by
    cases hi : st.info <;>
      simp [auto_summarize_and_trim, hf, hok, resolveKeep, save_conversation_summary,
        add_message, update_session_activity, create_session, ltrimKey,
        session_exists, hi]
  have hklst : keyList st.messages = l := by simp [keyList, hp]
  have hdrop : keyList (auto_summarize_and_trim svc sid st now (some (k2 + 1))).1.messages
      = (keyList st.messages).drop ((keyList st.messages).length - (k2 + 1)) := by
    rw [hklst]
    simp only [keyList, hmsg, Option.map_some', Option.getD_some]
    exact lrange_last l (k2 + 1) (by omega)
  refine ⟨hret, hdrop, ?_, ?_, ?_, ?_⟩
  · rw [hdrop, hklst, List.length_drop]
    rw [hklst] at hkm
    omega
  · simp [get_conversation_summary, hsum]
  · simp only [keyList, hsys, Option.map_some', Option.getD_some]
    exact mem_sadd_self _ _
  · intro m hm
    simp only [keyList, hsys, Option.map_some', Option.getD_some]
    exact mem_sadd_of_mem _ _ _ hm

/-- C5 witness: compaction of the 25-turn session `st25` with `keep = 5` at
time 9 keeps the 5 most recent turns, stores `"SUM"`, injects the summary as
a system turn and preserves the standing directive `"d"`. -/
theorem C5_compaction_trims_witness :
    svcOk.summarization_agent = some okA
    ∧ okA (get_history st25 none false) (get_conversation_summary st25) = .ok "SUM"
    ∧ 1 ≤ 5 ∧ 5 < (keyList st25.messages).length
    ∧ (auto_summarize_and_trim svcOk "s" st25 9 (some 5)).2 = true
    ∧ keyList (auto_summarize_and_trim svcOk "s" st25 9 (some 5)).1.messages
        = (keyList st25.messages).drop ((keyList st25.messages).length - 5)
    ∧ (keyList (auto_summarize_and_trim svcOk "s" st25 9 (some 5)).1.messages).length = 5
    ∧ get_conversation_summary (auto_summarize_and_trim svcOk "s" st25 9 (some 5)).1
        = some "SUM"
    ∧ ({ role := "system", content := "Previous conversation summary: SUM",
         timestamp := 9, metadata := [] } : Msg)
        ∈ keyList (auto_summarize_and_trim svcOk "s" st25 9 (some 5)).1.system
    ∧ ({ role := "system", content := "d", timestamp := 0, metadata := [] } : Msg)
        ∈ keyList (auto_summarize_and_trim svcOk "s" st25 9 (some 5)).1.system :=
  have h := C5_compaction_trims svcOk "s" st25 9 okA "SUM" 5 rfl rfl
    (by decide) (by decide)
  ⟨rfl, rfl, by decide, by decide, h.1, h.2.1, h.2.2.1, h.2.2.2.1, h.2.2.2.2.1,
   h.2.2.2.2.2 _ (by decide)⟩

/-- C6: starting from a nonexistent session, for every sequence of appends
whose clock values strictly increase, `get_history` returns all system turns
before all human/ai turns, each group in chronological insertion order (the
system turns, stored unordered, get this order from the timestamp sort at
read time). -/
theorem C6_history_ordering (svc : Service) (sid : String) (l : List AppendReq)
    (hpw : List.Pairwise (fun a b => a.now < b.now) l) :
    get_history (applyAppends svc sid emptyState l) none true
      = ((l.filter fun a => a.role == "system").map toMsg)
        ++ ((l.filter fun a => !(a.role == "system")).map toMsg) := by
  obtain ⟨hM, hS⟩ := applyAppends_split svc sid l emptyState
    (by intro a _ m hm; simp [emptyState, keyList] at hm) hpw
  rw [show keyList emptyState.messages = [] from rfl, List.nil_append] at hM
  rw [show keyList emptyState.system = [] from rfl, List.nil_append] at hS
  simp only [get_history, historyStop, if_true]
  rw [hS, hM, lrange_all]
  refine pySort_eq_of_blocks _ _ ?_ ?_ ?_ ?_
  · intro m hm
    obtain ⟨a, ha, rfl⟩ := List.mem_map.mp hm
    have h := List.of_mem_filter ha
    simp only [beq_iff_eq] at h
    simpa [toMsg] using h
  · intro m hm
    obtain ⟨a, ha, rfl⟩ := List.mem_map.mp hm
    have h := List.of_mem_filter ha
    simp only [Bool.not_eq_true', beq_eq_false_iff_ne] at h
    simpa [toMsg] using h
  · exact List.pairwise_map.mpr (((hpw.filter _).imp fun h => by
      simpa [toMsg] using Nat.le_of_lt h))
  · exact List.pairwise_map.mpr (((hpw.filter _).imp fun h => by
      simpa [toMsg] using Nat.le_of_lt h))

/-- C6 witness: appending human (t=1), system (t=2), ai (t=3) turns yields a
history with the system turn first, then the human and ai turns in insertion
order. -/
theorem C6_history_ordering_witness :
    List.Pairwise (fun a b : AppendReq => a.now < b.now) appendsW
    ∧ get_history (applyAppends svcF "s" emptyState appendsW) none true
        = [{ role := "system", content := "You are a SQL assistant.",
             timestamp := 2, metadata := [] },
           { role := "human", content := "How many employees?",
             timestamp := 1, metadata := [] },
           { role := "ai", content := "SELECT COUNT(*) FROM employees",
             timestamp := 3, metadata := [] }] :=
  ⟨by decide, (C6_history_ordering svcF "s" appendsW (by decide)).trans (by decide)⟩

/-- C7: for every positive `limit = n`, `get_history` reads the first `n`
entries of the stored list — the oldest-first head, not the `n` most recent
— and then applies the system-first timestamp sort as post-processing. -/
theorem C7_limit_takes_head (st : SessionState) (n : Nat) (hn : 0 < n)
    (include_system : Bool) :
    get_history st (some n) include_system
      = pySort ((if include_system then keyList st.system else [])
          ++ (keyList st.messages).take n) := by
  obtain ⟨m, rfl⟩ : ∃ m, n = m + 1 := ⟨n - 1, by omega⟩
  simp only [get_history, historyStop]
  rw [lrange_head]

/-- C7 witness: on the 25-turn session, `limit = 2` returns the sorted
concatenation of the system directives with the first two (oldest) turns. -/
theorem C7_limit_takes_head_witness :
    0 < 2
    ∧ get_history st25 (some 2) true
        = pySort ((if true then keyList st25.system else [])
            ++ (keyList st25.messages).take 2) :=
  ⟨by decide, C7_limit_takes_head st25 2 (by decide) true⟩

/-- C8: appending to a session whose metadata key is absent does not fail:
it auto-creates the session, and after the single append the metadata
records `message_count = 1` and `last_activity = now`. -/
theorem C8_append_auto_creates (svc : Service) (sid : String)
    (st : SessionState) (now : Nat) (role content : String)
    (md : List (String × String)) (h : st.info = none) :
    (add_message svc sid st now role content md).2 = true
    ∧ (get_session_info (add_message svc sid st now role content md).1).map
        SessionInfo.message_count = some 1
    ∧ (get_session_info (add_message svc sid st now role content md).1).map
        SessionInfo.last_activity = some now := by
  have hs : session_exists st = false := by simp [session_exists, h]
  cases hr : (role == "system") <;>
    simp [add_message, hs, create_session, update_session_activity,
      get_session_info, emptyInfo, hr, h]

/-- C8 witness: appending a human turn at time 7 to the empty (nonexistent)
session succeeds and leaves `message_count = 1`, `last_activity = 7`. -/
theorem C8_append_auto_creates_witness :
    emptyState.info = none
    ∧ (add_message svcF "s" emptyState 7 "human" "q" []).2 = true
    ∧ (get_session_info (add_message svcF "s" emptyState 7 "human" "q" []).1).map
        SessionInfo.message_count = some 1 :=
  ⟨rfl, (C8_append_auto_creates svcF "s" emptyState 7 "human" "q" [] rfl).1,
   (C8_append_auto_creates svcF "s" emptyState 7 "human" "q" [] rfl).2.1⟩

/-- C9 counterexample: the claim asserts that compaction is serialized per
session — a second concurrent trigger observes an in-progress indication and
waits or no-ops, so the writes of two compactions never interleave.
Concurrency is modelled by arbitrary interleavings of the atomic store
writes each coroutine performs between `await` points; since
`auto_summarize_and_trim` consults no lock or flag, its write phase is
schedule-independent, and every interleaving is a reachable execution.  The
claim then requires every trace to be serial, or the second process to
perform no write at all; the alternating schedule refutes this. -/
theorem C9_counterexample :
    ¬ ∀ sch : List Bool,
        SerialTrace phaseOne phaseTwo (interleave sch phaseOne phaseTwo)
        ∨ (interleave sch phaseOne phaseTwo).filter (fun a => !a.1) = [] := by
  intro h
  have hc := h [true, false, true, false, true, false]
  revert hc
  decide

/-- C9 amended: the code contains no per-session lock and no in-progress
flag, so compactions are not serialized.  Under every schedule both
concurrent compactions perform all three of their store writes (the second
neither waits nor no-ops), and under the alternating schedule the writes
interleave: both summaries are written with the last writer winning, both
system turns are injected, and the list is trimmed. -/
theorem C9_no_compaction_serialization :
    (∀ sch : List Bool,
      ((interleave sch phaseOne phaseTwo).filter (fun a => !a.1)).length = 3
      ∧ ((interleave sch phaseOne phaseTwo).filter (fun a => a.1)).length = 3)
    ∧ get_conversation_summary
        (runTrace svcF "s" 9 stC9
          (interleave [true, false, true, false, true, false] phaseOne phaseTwo))
        = some "summary two"
    ∧ (keyList (runTrace svcF "s" 9 stC9
          (interleave [true, false, true, false, true, false] phaseOne phaseTwo)).messages).length
        = 5
    ∧ ({ role := "system", content := "Previous conversation summary: summary one",
         timestamp := 9, metadata := [] } : Msg)
        ∈ keyList (runTrace svcF "s" 9 stC9
            (interleave [true, false, true, false, true, false] phaseOne phaseTwo)).system
    ∧ ({ role := "system", content := "Previous conversation summary: summary two",
         timestamp := 9, metadata := [] } : Msg)
        ∈ keyList (runTrace svcF "s" 9 stC9
            (interleave [true, false, true, false, true, false] phaseOne phaseTwo)).system := by
  refine ⟨?_, by decide, by decide, by decide, by decide⟩
  intro sch
  have hperm := interleave_perm sch phaseOne phaseTwo
  constructor
  · rw [(hperm.filter _).length_eq]
    decide
  · rw [(hperm.filter _).length_eq]
    decide

/-- C10: `get_history` with `limit = 0` behaves exactly like `get_history`
with no limit at all — the Python expression `limit - 1 if limit else -1`
treats the falsy `0` as "no limit", so the whole list is read, not an empty
subset. -/
theorem C10_zero_limit_full_history (st : SessionState) (include_system : Bool) :
    get_history st (some 0) include_system = get_history st none include_system :=
  rfl

end Text2SQL
